import Mathlib

/-!
Shallow embedding of the `pdfrx_file_access` blocking-read bridge of the
pdfrx repository, together with the symbol-table entry point `pdfrx_binding`.

The bridge appears twice in the sources, in
`src/packages/pdfrx/src/pdfium_interop.cpp` (namespace `Pdfrx` below) and in
`src/darwin/Classes/pdfium_interop.cpp` (namespace `Darwin` below). Each
namespace is translated independently from its own file.

Modelling conventions:
- pointers (`void *`, `unsigned char *`, function pointers) are opaque
  machine words, embedded as `Nat`;
- the C++ `int` status code is embedded as `Int` (the bridge performs no
  arithmetic on it, it is pure transport);
- the mutex/condition-variable rendezvous is embedded as a labelled
  transition system whose atomic steps are the critical sections of the
  source: entering `read` (lock, invoke `readBlock`, enter `cond.wait`
  releasing the lock), a `pdfrx_file_access_set_value` call (lock, store
  `retValue`, `notify_one`, unlock), and the waiter resuming from
  `cond.wait` (re-acquire the lock, load `retValue`, return).
  Condition variables are given their idealized semantics: `wait` suspends
  until a `notify_one` arrives, and a `notify_one` with no suspended waiter
  is dropped;
- invocations of the creator-supplied `readBlock` callback are recorded in
  an event log, since their effect lives outside this translation unit.
-/

namespace Pdfrx

/-- The PDFium `FPDF_FILEACCESS` descriptor embedded at the head of the
bridge: total file length, the block-read function pointer, and the opaque
parameter handed back to it.  The function pointer can only ever be set to
the file-static `read` function of this translation unit, so its value
space is the one-constructor type `GetBlockFn` (plus `none` for the
zero-initialized state produced by `new pdfrx_file_access()`). -/
inductive GetBlockFn
  | read
deriving DecidableEq, Repr

structure FPDF_FILEACCESS where
  m_FileLen : Nat
  m_GetBlock : Option GetBlockFn
  m_Param : Nat
deriving DecidableEq, Repr

/-- `struct pdfrx_file_access`: the descriptor, the pending status code
`retValue`, the creator-supplied callback `readBlock` (an opaque function
pointer) and its context `param`.  The `std::mutex` and
`std::condition_variable` members carry no data; they are embedded in the
transition system below. -/
structure pdfrx_file_access where
  fileAccess : FPDF_FILEACCESS
  retValue : Int
  readBlock : Nat
  param : Nat
deriving DecidableEq, Repr

/-- `pdfrx_file_access_create(fileSize, readBlock, param)`.  The argument
`self` is the address the allocator returns for the new object; the source
stores it into `fileAccess.m_Param` (`fileAccess->fileAccess.m_Param =
fileAccess;`).  The net effect of the constructor-plus-assignments of
lines 47-54 of the source is the record below. -/
def pdfrx_file_access_create (self : Nat) (fileSize : Nat) (readBlock : Nat)
    (param : Nat) : pdfrx_file_access :=
  { fileAccess :=
      { m_FileLen := fileSize
        m_GetBlock := some GetBlockFn.read
        m_Param := self }
    retValue := 0
    readBlock := readBlock
    param := param }

/-- `pdfrx_file_access_destroy`: `delete fileAccess;` — removes the object
at `addr` from the heap. -/
def pdfrx_file_access_destroy (heap : Nat → Option pdfrx_file_access)
    (addr : Nat) : Nat → Option pdfrx_file_access :=
  fun a => if a = addr then none else heap a

/-- The data-store part of `pdfrx_file_access_set_value`:
`fileAccess->retValue = retValue;`.  The accompanying `notify_one` is a
synchronization effect, handled by the transition system. -/
def pdfrx_file_access_set_value (fileAccess : pdfrx_file_access)
    (retValue : Int) : pdfrx_file_access :=
  { fileAccess with retValue := retValue }

/-- One recorded invocation of the creator-supplied `readBlock` callback:
which function pointer was called, and the four arguments
`(param, position, pBuf, size)` it received. -/
structure ReadRequest where
  fn : Nat
  param : Nat
  position : Nat
  pBuf : Nat
  size : Nat
deriving DecidableEq, Repr

/-- Control state of the (single) worker thread that calls `read`:
`idle` — not inside `read`; `waiting pos buf size` —`readBlock` has been
invoked and the thread is suspended in `cond.wait`; `woken` — a
`notify_one` has released it from `cond.wait` but it has not yet
re-acquired the lock; `returned r` — `read` returned `r`. -/
inductive ReaderState
  | idle
  | waiting (position : Nat) (pBuf : Nat) (size : Nat)
  | woken
  | returned (r : Int)
deriving DecidableEq, Repr

/-- Whole-bridge state: the C++ object, the worker thread's control state,
and the log of `readBlock` invocations. -/
structure SysState where
  bridge : pdfrx_file_access
  reader : ReaderState
  events : List ReadRequest
deriving DecidableEq, Repr

/-- The atomic steps of the rendezvous. -/
inductive Label
  | startRead (position : Nat) (pBuf : Nat) (size : Nat)
  | completeRead (r : Int)
  | wakeReturn
deriving DecidableEq, Repr

/-- Whether the worker thread is outside `read`, hence free to enter it. -/
def ReaderState.canStart : ReaderState → Bool
  | .idle => true
  | .returned _ => true
  | _ => false

/-- One atomic step.  `startRead` is lines 38-41 of `read`: under the lock,
invoke `fileAccess->readBlock(fileAccess->param, position, pBuf, size)` and
enter `cond.wait` (releasing the lock).  `completeRead` is
`pdfrx_file_access_set_value`: under the lock, store `retValue` and
`notify_one` — releasing the suspended waiter if there is one, dropped
otherwise.  `wakeReturn` is the resumption from `cond.wait` and line 42:
re-acquire the lock and `return fileAccess->retValue`. -/
def stepFn (s : SysState) : Label → Option SysState
  | .startRead position pBuf size =>
    if s.reader.canStart then
      some { s with
              reader := ReaderState.waiting position pBuf size
              events := s.events ++
                [{ fn := s.bridge.readBlock, param := s.bridge.param
                   position := position, pBuf := pBuf, size := size }] }
    else
      none
  | .completeRead r =>
    match s.reader with
    | .waiting _ _ _ =>
        some { s with
                bridge := pdfrx_file_access_set_value s.bridge r
                reader := ReaderState.woken }
    | _ =>
        some { s with bridge := pdfrx_file_access_set_value s.bridge r }
  | .wakeReturn =>
    match s.reader with
    | .woken => some { s with reader := ReaderState.returned s.bridge.retValue }
    | _ => none

def Step (s : SysState) (l : Label) (s' : SysState) : Prop :=
  stepFn s l = some s'

instance (s : SysState) (l : Label) (s' : SysState) : Decidable (Step s l s') := by
  unfold Step; infer_instance

/-- Run a whole label sequence. -/
def stepsFn (s : SysState) : List Label → Option SysState
  | [] => some s
  | l :: ls =>
    match stepFn s l with
    | some s' => stepsFn s' ls
    | none => none

def Steps (s : SysState) (ls : List Label) (s' : SysState) : Prop :=
  stepsFn s ls = some s'

instance (s : SysState) (ls : List Label) (s' : SysState) :
    Decidable (Steps s ls s') := by
  unfold Steps; infer_instance

/-- State of a freshly created bridge: the object built by
`pdfrx_file_access_create`, the worker thread outside `read`, and no
callback ever invoked. -/
def initSystem (self : Nat) (fileSize : Nat) (readBlock : Nat) (param : Nat) :
    SysState :=
  { bridge := pdfrx_file_access_create self fileSize readBlock param
    reader := ReaderState.idle
    events := [] }

end Pdfrx

/-!
The second copy of the bridge, translated from
`src/darwin/Classes/pdfium_interop.cpp` (lines 22-66 there), with the same
modelling conventions as `Pdfrx` above.  This file additionally defines the
`pdfrx_binding` symbol-table entry point (lines 69-224).
-/

namespace Darwin

/-- Value space of `FPDF_FILEACCESS.m_GetBlock` in the darwin copy; the only
function ever stored there is the file-static `read`. -/
inductive GetBlockFn
  | read
deriving DecidableEq, Repr

structure FPDF_FILEACCESS where
  m_FileLen : Nat
  m_GetBlock : Option GetBlockFn
  m_Param : Nat
deriving DecidableEq, Repr

/-- `struct pdfrx_file_access` of the darwin copy. -/
structure pdfrx_file_access where
  fileAccess : FPDF_FILEACCESS
  retValue : Int
  readBlock : Nat
  param : Nat
deriving DecidableEq, Repr

/-- `pdfrx_file_access_create` of the darwin copy (lines 44-54 there). -/
def pdfrx_file_access_create (self : Nat) (fileSize : Nat) (readBlock : Nat)
    (param : Nat) : pdfrx_file_access :=
  { fileAccess :=
      { m_FileLen := fileSize
        m_GetBlock := some GetBlockFn.read
        m_Param := self }
    retValue := 0
    readBlock := readBlock
    param := param }

/-- `pdfrx_file_access_destroy` of the darwin copy. -/
def pdfrx_file_access_destroy (heap : Nat → Option pdfrx_file_access)
    (addr : Nat) : Nat → Option pdfrx_file_access :=
  fun a => if a = addr then none else heap a

/-- Data-store part of `pdfrx_file_access_set_value` of the darwin copy. -/
def pdfrx_file_access_set_value (fileAccess : pdfrx_file_access)
    (retValue : Int) : pdfrx_file_access :=
  { fileAccess with retValue := retValue }

/-- One recorded `readBlock` invocation, darwin copy. -/
structure ReadRequest where
  fn : Nat
  param : Nat
  position : Nat
  pBuf : Nat
  size : Nat
deriving DecidableEq, Repr

/-- Worker-thread control state, darwin copy. -/
inductive ReaderState
  | idle
  | waiting (position : Nat) (pBuf : Nat) (size : Nat)
  | woken
  | returned (r : Int)
deriving DecidableEq, Repr

/-- Whole-bridge state, darwin copy. -/
structure SysState where
  bridge : pdfrx_file_access
  reader : ReaderState
  events : List ReadRequest
deriving DecidableEq, Repr

/-- Atomic steps of the rendezvous, darwin copy. -/
inductive Label
  | startRead (position : Nat) (pBuf : Nat) (size : Nat)
  | completeRead (r : Int)
  | wakeReturn
deriving DecidableEq, Repr

def ReaderState.canStart : ReaderState → Bool
  | .idle => true
  | .returned _ => true
  | _ => false

/-- One atomic step of the darwin copy (`read` lines 32-42,
`pdfrx_file_access_set_value` lines 61-66 there). -/
def stepFn (s : SysState) : Label → Option SysState
  | .startRead position pBuf size =>
    if s.reader.canStart then
      some { s with
              reader := ReaderState.waiting position pBuf size
              events := s.events ++
                [{ fn := s.bridge.readBlock, param := s.bridge.param
                   position := position, pBuf := pBuf, size := size }] }
    else
      none
  | .completeRead r =>
    match s.reader with
    | .waiting _ _ _ =>
        some { s with
                bridge := pdfrx_file_access_set_value s.bridge r
                reader := ReaderState.woken }
    | _ =>
        some { s with bridge := pdfrx_file_access_set_value s.bridge r }
  | .wakeReturn =>
    match s.reader with
    | .woken => some { s with reader := ReaderState.returned s.bridge.retValue }
    | _ => none

def Step (s : SysState) (l : Label) (s' : SysState) : Prop :=
  stepFn s l = some s'

def stepsFn (s : SysState) : List Label → Option SysState
  | [] => some s
  | l :: ls =>
    match stepFn s l with
    | some s' => stepsFn s' ls
    | none => none

def Steps (s : SysState) (ls : List Label) (s' : SysState) : Prop :=
  stepsFn s ls = some s'

/-- State of a freshly created bridge, darwin copy. -/
def initSystem (self : Nat) (fileSize : Nat) (readBlock : Nat) (param : Nat) :
    SysState :=
  { bridge := pdfrx_file_access_create self fileSize readBlock param
    reader := ReaderState.idle
    events := [] }

/-- The contents of the `static const void *bindings[]` array of
`pdfrx_binding` (lines 71-222 of the darwin file): the addresses of the
re-exported PDFium functions, in source order, skipping the three
commented-out entries.  The address of a symbol is embedded as the symbol's
name, a faithful rendering since distinct symbols have distinct
addresses. -/
def bindings : List String :=
  [ "FPDF_InitLibraryWithConfig", "FPDF_InitLibrary", "FPDF_DestroyLibrary",
    "FPDF_SetSandBoxPolicy", "FPDF_LoadDocument", "FPDF_LoadMemDocument",
    "FPDF_LoadMemDocument64", "FPDF_LoadCustomDocument", "FPDF_GetFileVersion",
    "FPDF_GetLastError", "FPDF_DocumentHasValidCrossReferenceTable", "FPDF_GetTrailerEnds",
    "FPDF_GetDocPermissions", "FPDF_GetSecurityHandlerRevision", "FPDF_GetPageCount",
    "FPDF_LoadPage", "FPDF_GetPageWidthF", "FPDF_GetPageWidth", "FPDF_GetPageHeightF",
    "FPDF_GetPageHeight", "FPDF_GetPageBoundingBox", "FPDF_GetPageSizeByIndexF",
    "FPDF_GetPageSizeByIndex", "FPDF_RenderPageBitmap", "FPDF_RenderPageBitmapWithMatrix",
    "FPDF_ClosePage", "FPDF_CloseDocument", "FPDF_DeviceToPage", "FPDF_PageToDevice",
    "FPDFBitmap_Create", "FPDFBitmap_CreateEx", "FPDFBitmap_GetFormat", "FPDFBitmap_FillRect",
    "FPDFBitmap_GetBuffer", "FPDFBitmap_GetWidth", "FPDFBitmap_GetHeight",
    "FPDFBitmap_GetStride", "FPDFBitmap_Destroy", "FPDF_VIEWERREF_GetPrintScaling",
    "FPDF_VIEWERREF_GetNumCopies", "FPDF_VIEWERREF_GetPrintPageRange",
    "FPDF_VIEWERREF_GetPrintPageRangeCount", "FPDF_VIEWERREF_GetPrintPageRangeElement",
    "FPDF_VIEWERREF_GetDuplex", "FPDF_VIEWERREF_GetName", "FPDF_CountNamedDests",
    "FPDF_GetNamedDestByName", "FPDF_GetNamedDest", "FPDF_GetXFAPacketCount",
    "FPDF_GetXFAPacketName", "FPDF_GetXFAPacketContent", "FPDFAnnot_IsSupportedSubtype",
    "FPDFPage_CreateAnnot", "FPDFPage_GetAnnotCount", "FPDFPage_GetAnnot",
    "FPDFPage_GetAnnotIndex", "FPDFPage_CloseAnnot", "FPDFPage_RemoveAnnot",
    "FPDFAnnot_GetSubtype", "FPDFAnnot_IsObjectSupportedSubtype", "FPDFAnnot_UpdateObject",
    "FPDFAnnot_AddInkStroke", "FPDFAnnot_RemoveInkList", "FPDFAnnot_AppendObject",
    "FPDFAnnot_GetObjectCount", "FPDFAnnot_GetObject", "FPDFAnnot_RemoveObject",
    "FPDFAnnot_SetColor", "FPDFAnnot_GetColor", "FPDFAnnot_HasAttachmentPoints",
    "FPDFAnnot_SetAttachmentPoints", "FPDFAnnot_AppendAttachmentPoints",
    "FPDFAnnot_CountAttachmentPoints", "FPDFAnnot_GetAttachmentPoints", "FPDFAnnot_SetRect",
    "FPDFAnnot_GetRect", "FPDFAnnot_GetVertices", "FPDFAnnot_GetInkListCount",
    "FPDFAnnot_GetInkListPath", "FPDFAnnot_GetLine", "FPDFAnnot_SetBorder",
    "FPDFAnnot_GetBorder", "FPDFAnnot_GetFormAdditionalActionJavaScript", "FPDFAnnot_HasKey",
    "FPDFAnnot_GetValueType", "FPDFAnnot_SetStringValue", "FPDFAnnot_GetStringValue",
    "FPDFAnnot_GetNumberValue", "FPDFAnnot_SetAP", "FPDFAnnot_GetAP",
    "FPDFAnnot_GetLinkedAnnot", "FPDFAnnot_GetFlags", "FPDFAnnot_SetFlags",
    "FPDFAnnot_GetFormFieldFlags", "FPDFAnnot_GetFormFieldAtPoint",
    "FPDFAnnot_GetFormFieldName", "FPDFAnnot_GetFormFieldAlternateName",
    "FPDFAnnot_GetFormFieldType", "FPDFAnnot_GetFormFieldValue", "FPDFAnnot_GetOptionCount",
    "FPDFAnnot_GetOptionLabel", "FPDFAnnot_IsOptionSelected", "FPDFAnnot_GetFontSize",
    "FPDFAnnot_IsChecked", "FPDFAnnot_SetFocusableSubtypes",
    "FPDFAnnot_GetFocusableSubtypesCount", "FPDFAnnot_GetFocusableSubtypes",
    "FPDFAnnot_GetLink", "FPDFAnnot_GetFormControlCount", "FPDFAnnot_GetFormControlIndex",
    "FPDFAnnot_GetFormFieldExportValue", "FPDFAnnot_SetURI", "FPDFText_LoadPage",
    "FPDFText_ClosePage", "FPDFText_CountChars", "FPDFText_GetUnicode", "FPDFText_IsGenerated",
    "FPDFText_IsHyphen", "FPDFText_HasUnicodeMapError", "FPDFText_GetFontSize",
    "FPDFText_GetFontInfo", "FPDFText_GetFontWeight", "FPDFText_GetTextRenderMode",
    "FPDFText_GetFillColor", "FPDFText_GetStrokeColor", "FPDFText_GetCharAngle",
    "FPDFText_GetCharBox", "FPDFText_GetLooseCharBox", "FPDFText_GetMatrix",
    "FPDFText_GetCharOrigin", "FPDFText_GetCharIndexAtPos", "FPDFText_GetText",
    "FPDFText_CountRects", "FPDFText_GetRect", "FPDFText_GetBoundedText", "FPDFText_FindStart",
    "FPDFText_FindNext", "FPDFText_FindPrev", "FPDFText_GetSchResultIndex",
    "FPDFText_GetSchCount", "FPDFText_FindClose", "FPDFLink_LoadWebLinks",
    "FPDFLink_CountWebLinks", "FPDFLink_GetURL", "FPDFLink_CountRects", "FPDFLink_GetRect",
    "FPDFLink_GetTextRange", "FPDFLink_CloseWebLinks" ]

/-- `pdfrx_binding()` (lines 69-224 of the darwin file): returns the
function-local `static const` table.  The array has constant initializers
and is never written after initialization, so the function's result depends
neither on which run of the program (`run`) nor on which call within a run
(`call`) performs the lookup. -/
def pdfrx_binding (run : Nat) (call : Nat) : List String :=
  bindings

end Darwin

/-!
Field-for-field correspondences between the two copies of the bridge, used
to state their behavioral equivalence (both directions).
-/

def gbToDarwin : Pdfrx.GetBlockFn → Darwin.GetBlockFn
  | .read => .read

def gbToPdfrx : Darwin.GetBlockFn → Pdfrx.GetBlockFn
  | .read => .read

def faToDarwin (f : Pdfrx.FPDF_FILEACCESS) : Darwin.FPDF_FILEACCESS :=
  { m_FileLen := f.m_FileLen
    m_GetBlock := f.m_GetBlock.map gbToDarwin
    m_Param := f.m_Param }

def faToPdfrx (f : Darwin.FPDF_FILEACCESS) : Pdfrx.FPDF_FILEACCESS :=
  { m_FileLen := f.m_FileLen
    m_GetBlock := f.m_GetBlock.map gbToPdfrx
    m_Param := f.m_Param }

def bridgeToDarwin (b : Pdfrx.pdfrx_file_access) : Darwin.pdfrx_file_access :=
  { fileAccess := faToDarwin b.fileAccess
    retValue := b.retValue
    readBlock := b.readBlock
    param := b.param }

def bridgeToPdfrx (b : Darwin.pdfrx_file_access) : Pdfrx.pdfrx_file_access :=
  { fileAccess := faToPdfrx b.fileAccess
    retValue := b.retValue
    readBlock := b.readBlock
    param := b.param }

def readerToDarwin : Pdfrx.ReaderState → Darwin.ReaderState
  | .idle => .idle
  | .waiting p b z => .waiting p b z
  | .woken => .woken
  | .returned r => .returned r

def readerToPdfrx : Darwin.ReaderState → Pdfrx.ReaderState
  | .idle => .idle
  | .waiting p b z => .waiting p b z
  | .woken => .woken
  | .returned r => .returned r

def eventToDarwin (e : Pdfrx.ReadRequest) : Darwin.ReadRequest :=
  { fn := e.fn, param := e.param, position := e.position
    pBuf := e.pBuf, size := e.size }

def eventToPdfrx (e : Darwin.ReadRequest) : Pdfrx.ReadRequest :=
  { fn := e.fn, param := e.param, position := e.position
    pBuf := e.pBuf, size := e.size }

def sysToDarwin (s : Pdfrx.SysState) : Darwin.SysState :=
  { bridge := bridgeToDarwin s.bridge
    reader := readerToDarwin s.reader
    events := s.events.map eventToDarwin }

def sysToPdfrx (s : Darwin.SysState) : Pdfrx.SysState :=
  { bridge := bridgeToPdfrx s.bridge
    reader := readerToPdfrx s.reader
    events := s.events.map eventToPdfrx }

def labelToDarwin : Pdfrx.Label → Darwin.Label
  | .startRead p b z => .startRead p b z
  | .completeRead r => .completeRead r
  | .wakeReturn => .wakeReturn

/-- The same system state with the stored `m_FileLen` replaced, used to
state that `read` is insensitive to the stored total length. -/
def setFileLen (s : Pdfrx.SysState) (n : Nat) : Pdfrx.SysState :=
  { s with
    bridge :=
      { s.bridge with
        fileAccess := { s.bridge.fileAccess with m_FileLen := n } } }

/-!
Helper lemmas about the `Pdfrx` step system.
-/

lemma stepFn_startRead_canStart {s : Pdfrx.SysState}
    (hc : s.reader.canStart = true) (p b z : Nat) :
    Pdfrx.stepFn s (Pdfrx.Label.startRead p b z)
      = some { s with
                reader := Pdfrx.ReaderState.waiting p b z
                events := s.events ++
                  [{ fn := s.bridge.readBlock, param := s.bridge.param
                     position := p, pBuf := b, size := z }] } := by
  simp [Pdfrx.stepFn, hc]

lemma stepFn_startRead_blocked {s : Pdfrx.SysState}
    (hc : s.reader.canStart = false) (p b z : Nat) :
    Pdfrx.stepFn s (Pdfrx.Label.startRead p b z) = none := by
  simp [Pdfrx.stepFn, hc]

lemma step_startRead_elim {s s' : Pdfrx.SysState} {p b z : Nat}
    (h : Pdfrx.Step s (Pdfrx.Label.startRead p b z) s') :
    s.reader.canStart = true ∧
    s' = { s with
            reader := Pdfrx.ReaderState.waiting p b z
            events := s.events ++
              [{ fn := s.bridge.readBlock, param := s.bridge.param
                 position := p, pBuf := b, size := z }] } := by
  unfold Pdfrx.Step at h
  cases hc : s.reader.canStart with
  | true =>
    rw [stepFn_startRead_canStart hc] at h
    exact ⟨rfl, (Option.some.inj h).symm⟩
  | false =>
    rw [stepFn_startRead_blocked hc] at h
    exact Option.noConfusion h

lemma step_startRead_intro (s : Pdfrx.SysState) (p b z : Nat)
    (hc : s.reader.canStart = true) :
    Pdfrx.Step s (Pdfrx.Label.startRead p b z)
      { s with
        reader := Pdfrx.ReaderState.waiting p b z
        events := s.events ++
          [{ fn := s.bridge.readBlock, param := s.bridge.param
             position := p, pBuf := b, size := z }] } :=
  stepFn_startRead_canStart hc p b z

lemma stepFn_completeRead_waiting {s : Pdfrx.SysState} {p b z : Nat}
    (hr : s.reader = Pdfrx.ReaderState.waiting p b z) (r : Int) :
    Pdfrx.stepFn s (Pdfrx.Label.completeRead r)
      = some { s with
                bridge := Pdfrx.pdfrx_file_access_set_value s.bridge r
                reader := Pdfrx.ReaderState.woken } := by
  simp [Pdfrx.stepFn, hr]

lemma stepFn_completeRead_not_waiting {s : Pdfrx.SysState}
    (hr : ∀ p b z, s.reader ≠ Pdfrx.ReaderState.waiting p b z) (r : Int) :
    Pdfrx.stepFn s (Pdfrx.Label.completeRead r)
      = some { s with bridge := Pdfrx.pdfrx_file_access_set_value s.bridge r } := by
  cases hc : s.reader with
  | idle => simp [Pdfrx.stepFn, hc]
  | waiting p b z => exact absurd hc (hr p b z)
  | woken => simp [Pdfrx.stepFn, hc]
  | returned r' => simp [Pdfrx.stepFn, hc]

lemma step_completeRead_elim {s s' : Pdfrx.SysState} {r : Int}
    (h : Pdfrx.Step s (Pdfrx.Label.completeRead r) s') :
    s'.bridge = Pdfrx.pdfrx_file_access_set_value s.bridge r
    ∧ s'.events = s.events
    ∧ (∀ p b z, s.reader = Pdfrx.ReaderState.waiting p b z →
        s'.reader = Pdfrx.ReaderState.woken)
    ∧ ((∀ p b z, s.reader ≠ Pdfrx.ReaderState.waiting p b z) →
        s'.reader = s.reader) := by
  unfold Pdfrx.Step at h
  by_cases hw : ∃ p b z, s.reader = Pdfrx.ReaderState.waiting p b z
  · obtain ⟨p, b, z, hr⟩ := hw
    rw [stepFn_completeRead_waiting hr r] at h
    obtain rfl := Option.some.inj h
    exact ⟨rfl, rfl, fun _ _ _ _ => rfl, fun hn => absurd hr (hn p b z)⟩
  · push_neg at hw
    rw [stepFn_completeRead_not_waiting hw r] at h
    obtain rfl := Option.some.inj h
    exact ⟨rfl, rfl, fun p b z hr => absurd hr (hw p b z), fun _ => rfl⟩

lemma stepFn_wakeReturn_woken {s : Pdfrx.SysState}
    (hr : s.reader = Pdfrx.ReaderState.woken) :
    Pdfrx.stepFn s Pdfrx.Label.wakeReturn
      = some { s with reader := Pdfrx.ReaderState.returned s.bridge.retValue } := by
  simp [Pdfrx.stepFn, hr]

lemma step_wakeReturn_elim {s s' : Pdfrx.SysState}
    (h : Pdfrx.Step s Pdfrx.Label.wakeReturn s') :
    s.reader = Pdfrx.ReaderState.woken
    ∧ s' = { s with reader := Pdfrx.ReaderState.returned s.bridge.retValue } := by
  cases hc : s.reader with
  | idle => simp [Pdfrx.Step, Pdfrx.stepFn, hc] at h
  | waiting p b z => simp [Pdfrx.Step, Pdfrx.stepFn, hc] at h
  | woken =>
    unfold Pdfrx.Step at h
    rw [stepFn_wakeReturn_woken hc] at h
    exact ⟨rfl, (Option.some.inj h).symm⟩
  | returned r' => simp [Pdfrx.Step, Pdfrx.stepFn, hc] at h

lemma steps_nil_elim {s t : Pdfrx.SysState} (h : Pdfrx.Steps s [] t) : t = s :=
  (Option.some.inj h).symm

lemma steps_nil_intro (s : Pdfrx.SysState) : Pdfrx.Steps s [] s := rfl

lemma steps_cons_iff {s t : Pdfrx.SysState} {l : Pdfrx.Label}
    {ls : List Pdfrx.Label} :
    Pdfrx.Steps s (l :: ls) t
      ↔ ∃ s', Pdfrx.Step s l s' ∧ Pdfrx.Steps s' ls t := by
  constructor
  · intro h
    unfold Pdfrx.Steps Pdfrx.stepsFn at h
    cases hs : Pdfrx.stepFn s l with
    | none => rw [hs] at h; exact absurd h (by simp)
    | some s' => rw [hs] at h; exact ⟨s', hs, h⟩
  · rintro ⟨s', h1, h2⟩
    unfold Pdfrx.Steps Pdfrx.stepsFn
    unfold Pdfrx.Step at h1
    rw [h1]
    exact h2

/-- No step changes the descriptor, the callback pointer or its context. -/
lemma step_meta {s s' : Pdfrx.SysState} {l : Pdfrx.Label}
    (h : Pdfrx.Step s l s') :
    s'.bridge.fileAccess = s.bridge.fileAccess
    ∧ s'.bridge.readBlock = s.bridge.readBlock
    ∧ s'.bridge.param = s.bridge.param := by
  cases l with
  | startRead p b z =>
    obtain ⟨-, rfl⟩ := step_startRead_elim h
    exact ⟨rfl, rfl, rfl⟩
  | completeRead r =>
    obtain ⟨hb, -, -, -⟩ := step_completeRead_elim h
    rw [hb]
    exact ⟨rfl, rfl, rfl⟩
  | wakeReturn =>
    obtain ⟨-, rfl⟩ := step_wakeReturn_elim h
    exact ⟨rfl, rfl, rfl⟩

lemma steps_meta {ls : List Pdfrx.Label} :
    ∀ {s t : Pdfrx.SysState}, Pdfrx.Steps s ls t →
    t.bridge.fileAccess = s.bridge.fileAccess
    ∧ t.bridge.readBlock = s.bridge.readBlock
    ∧ t.bridge.param = s.bridge.param := by
  induction ls with
  | nil =>
    intro s t h
    rw [steps_nil_elim h]
    exact ⟨rfl, rfl, rfl⟩
  | cons l ls ih =>
    intro s t h
    obtain ⟨s', h1, h2⟩ := steps_cons_iff.1 h
    obtain ⟨a1, a2, a3⟩ := step_meta h1
    obtain ⟨b1, b2, b3⟩ := ih h2
    exact ⟨b1.trans a1, b2.trans a2, b3.trans a3⟩

/-- From a `waiting` state, the only enabled step is a `completeRead`. -/
lemma step_from_waiting {s s' : Pdfrx.SysState} {l : Pdfrx.Label}
    {p b z : Nat} (hw : s.reader = Pdfrx.ReaderState.waiting p b z)
    (h : Pdfrx.Step s l s') :
    ∃ r, l = Pdfrx.Label.completeRead r := by
  cases l with
  | startRead p' b' z' =>
    obtain ⟨hc, -⟩ := step_startRead_elim h
    rw [hw] at hc
    exact absurd hc (by simp [Pdfrx.ReaderState.canStart])
  | completeRead r => exact ⟨r, rfl⟩
  | wakeReturn =>
    obtain ⟨hk, -⟩ := step_wakeReturn_elim h
    rw [hw] at hk
    cases hk

/-- A `completeRead`-free label sequence cannot move a `waiting` state at
all. -/
lemma steps_from_waiting {ls : List Pdfrx.Label} {s t : Pdfrx.SysState}
    {p b z : Nat} (hw : s.reader = Pdfrx.ReaderState.waiting p b z)
    (hfree : ∀ r, Pdfrx.Label.completeRead r ∉ ls)
    (h : Pdfrx.Steps s ls t) : t = s := by
  cases ls with
  | nil => exact steps_nil_elim h
  | cons l ls =>
    obtain ⟨s', h1, -⟩ := steps_cons_iff.1 h
    obtain ⟨r, rfl⟩ := step_from_waiting hw h1
    exact absurd (List.mem_cons_self _ _) (hfree r)

lemma step_no_complete {s s' : Pdfrx.SysState} {l : Pdfrx.Label}
    (h : Pdfrx.Step s l s') (hl : ∀ r, l ≠ Pdfrx.Label.completeRead r) :
    s'.bridge.retValue = s.bridge.retValue
    ∧ (s'.reader = Pdfrx.ReaderState.woken →
        s.reader = Pdfrx.ReaderState.woken) := by
  cases l with
  | startRead p b z =>
    obtain ⟨-, rfl⟩ := step_startRead_elim h
    exact ⟨rfl, fun hk => by cases hk⟩
  | completeRead r => exact absurd rfl (hl r)
  | wakeReturn =>
    obtain ⟨hk, rfl⟩ := step_wakeReturn_elim h
    exact ⟨rfl, fun _ => hk⟩

/-- Along a `completeRead`-free label sequence, "if the reader is `woken`
then `retValue = r`" is invariant. -/
lemma steps_woken_retValue {r : Int} {ls : List Pdfrx.Label} :
    ∀ {s t : Pdfrx.SysState}, Pdfrx.Steps s ls t →
    (∀ r', Pdfrx.Label.completeRead r' ∉ ls) →
    (s.reader = Pdfrx.ReaderState.woken → s.bridge.retValue = r) →
    (t.reader = Pdfrx.ReaderState.woken → t.bridge.retValue = r) := by
  induction ls with
  | nil =>
    intro s t h _ hP
    rw [steps_nil_elim h]
    exact hP
  | cons l ls ih =>
    intro s t h hfree hP
    obtain ⟨s', h1, h2⟩ := steps_cons_iff.1 h
    have hl : ∀ r', l ≠ Pdfrx.Label.completeRead r' := by
      intro r' he
      exact hfree r' (he ▸ List.mem_cons_self _ _)
    obtain ⟨hrv, hwk⟩ := step_no_complete h1 hl
    refine ih h2 (fun r' hm => hfree r' (List.mem_cons_of_mem _ hm)) ?_
    intro hw
    rw [hrv]
    exact hP (hwk hw)

/-!
Helper lemmas for the correspondence between the two copies of the bridge.
-/

lemma event_round1 (e : Pdfrx.ReadRequest) :
    eventToPdfrx (eventToDarwin e) = e := rfl

lemma event_round2 (e : Darwin.ReadRequest) :
    eventToDarwin (eventToPdfrx e) = e := rfl

lemma reader_round1 (rd : Pdfrx.ReaderState) :
    readerToPdfrx (readerToDarwin rd) = rd := by
  cases rd <;> rfl

lemma reader_round2 (rd : Darwin.ReaderState) :
    readerToDarwin (readerToPdfrx rd) = rd := by
  cases rd <;> rfl

lemma bridge_round1 (b : Pdfrx.pdfrx_file_access) :
    bridgeToPdfrx (bridgeToDarwin b) = b := by
  obtain ⟨⟨len, gb, par⟩, rv, rb, pr⟩ := b
  cases gb with
  | none => rfl
  | some g => cases g; rfl

lemma bridge_round2 (b : Darwin.pdfrx_file_access) :
    bridgeToDarwin (bridgeToPdfrx b) = b := by
  obtain ⟨⟨len, gb, par⟩, rv, rb, pr⟩ := b
  cases gb with
  | none => rfl
  | some g => cases g; rfl

lemma sys_round1 (s : Pdfrx.SysState) : sysToPdfrx (sysToDarwin s) = s := by
  obtain ⟨b, rd, ev⟩ := s
  simp [sysToDarwin, sysToPdfrx, bridge_round1, reader_round1,
    List.map_map, Function.comp_def, event_round1]

lemma sys_round2 (s : Darwin.SysState) : sysToDarwin (sysToPdfrx s) = s := by
  obtain ⟨b, rd, ev⟩ := s
  simp [sysToDarwin, sysToPdfrx, bridge_round2, reader_round2,
    List.map_map, Function.comp_def, event_round2]

lemma stepFn_commutes (s : Pdfrx.SysState) (l : Pdfrx.Label) :
    Option.map sysToDarwin (Pdfrx.stepFn s l)
      = Darwin.stepFn (sysToDarwin s) (labelToDarwin l) := by
  cases l <;> cases hr : s.reader <;>
    simp [Pdfrx.stepFn, Darwin.stepFn, sysToDarwin, readerToDarwin, hr,
      Pdfrx.ReaderState.canStart, Darwin.ReaderState.canStart,
      Pdfrx.pdfrx_file_access_set_value, Darwin.pdfrx_file_access_set_value,
      bridgeToDarwin, eventToDarwin, labelToDarwin]

lemma stepsFn_commutes (ls : List Pdfrx.Label) :
    ∀ s : Pdfrx.SysState,
    Option.map sysToDarwin (Pdfrx.stepsFn s ls)
      = Darwin.stepsFn (sysToDarwin s) (ls.map labelToDarwin) := by
  induction ls with
  | nil => intro s; rfl
  | cons l ls ih =>
    intro s
    have hcomm := stepFn_commutes s l
    cases hs : Pdfrx.stepFn s l with
    | none =>
      rw [hs] at hcomm
      simp only [Pdfrx.stepsFn, Darwin.stepsFn, List.map_cons, hs, ← hcomm,
        Option.map_none']
    | some s' =>
      rw [hs] at hcomm
      simp only [Pdfrx.stepsFn, Darwin.stepsFn, List.map_cons, hs, ← hcomm,
        Option.map_some']
      exact ih s'

/-!
The claims.
-/

/-- C1: a `performRead` call that blocks and is then released by a
`completeRead(resultCode)` call returns exactly that `resultCode` — after
the releasing `completeRead r` (and with no further `completeRead`
intervening before the woken thread resumes), the read returns `r`
verbatim, for every bridge state and arguments, in particular regardless of
any buffer contents; the bridge performs no interpretation or
transformation of the status code. -/
theorem performRead_returns_completeRead_code
    (s s' t t' : Pdfrx.SysState) (p b z : Nat) (r : Int)
    (ls : List Pdfrx.Label)
    (hw : s.reader = Pdfrx.ReaderState.waiting p b z)
    (hc : Pdfrx.Step s (Pdfrx.Label.completeRead r) s')
    (hs : Pdfrx.Steps s' ls t)
    (hfree : ∀ r', Pdfrx.Label.completeRead r' ∉ ls)
    (hret : Pdfrx.Step t Pdfrx.Label.wakeReturn t') :
    t'.reader = Pdfrx.ReaderState.returned r := by
  obtain ⟨hb, -, hwk, -⟩ := step_completeRead_elim hc
  have hs'v : s'.bridge.retValue = r := by rw [hb]; rfl
  have hinv := steps_woken_retValue hs hfree (fun _ => hs'v)
  obtain ⟨htw, rfl⟩ := step_wakeReturn_elim hret
  show Pdfrx.ReaderState.returned t.bridge.retValue = Pdfrx.ReaderState.returned r
  rw [hinv htw]

theorem performRead_returns_completeRead_code_witness :
    (⟨⟨⟨100, some Pdfrx.GetBlockFn.read, 9⟩, 1, 7, 42⟩,
      Pdfrx.ReaderState.returned 1, []⟩ : Pdfrx.SysState).reader
      = Pdfrx.ReaderState.returned 1 :=
  performRead_returns_completeRead_code
    ⟨⟨⟨100, some Pdfrx.GetBlockFn.read, 9⟩, 0, 7, 42⟩,
      Pdfrx.ReaderState.waiting 0 5 10, []⟩
    ⟨⟨⟨100, some Pdfrx.GetBlockFn.read, 9⟩, 1, 7, 42⟩,
      Pdfrx.ReaderState.woken, []⟩
    ⟨⟨⟨100, some Pdfrx.GetBlockFn.read, 9⟩, 1, 7, 42⟩,
      Pdfrx.ReaderState.woken, []⟩
    ⟨⟨⟨100, some Pdfrx.GetBlockFn.read, 9⟩, 1, 7, 42⟩,
      Pdfrx.ReaderState.returned 1, []⟩
    0 5 10 1 [] rfl (by decide) (by decide) (by simp) (by decide)

/-- C2: a thread blocked inside `performRead` (state `waiting`) is released
only by a `completeRead` on the bridge — any step enabled from a `waiting`
state is a `completeRead` — and along any label sequence containing no
`completeRead` the thread stays blocked forever. -/
theorem blocked_read_released_only_by_completeRead :
    (∀ (s s' : Pdfrx.SysState) (l : Pdfrx.Label) (p b z : Nat),
        s.reader = Pdfrx.ReaderState.waiting p b z →
        Pdfrx.Step s l s' →
        ∃ r, l = Pdfrx.Label.completeRead r)
    ∧ (∀ (s t : Pdfrx.SysState) (ls : List Pdfrx.Label) (p b z : Nat),
        s.reader = Pdfrx.ReaderState.waiting p b z →
        (∀ r, Pdfrx.Label.completeRead r ∉ ls) →
        Pdfrx.Steps s ls t →
        t.reader = Pdfrx.ReaderState.waiting p b z) := by
  constructor
  · intro s s' l p b z hw h
    exact step_from_waiting hw h
  · intro s t ls p b z hw hfree h
    rw [steps_from_waiting hw hfree h]
    exact hw

theorem blocked_read_released_only_by_completeRead_witness :
    (∃ r, Pdfrx.Label.completeRead (1 : Int) = Pdfrx.Label.completeRead r)
    ∧ (⟨⟨⟨100, some Pdfrx.GetBlockFn.read, 9⟩, 0, 7, 42⟩,
        Pdfrx.ReaderState.waiting 0 5 10, []⟩ : Pdfrx.SysState).reader
        = Pdfrx.ReaderState.waiting 0 5 10 :=
  ⟨blocked_read_released_only_by_completeRead.1
      ⟨⟨⟨100, some Pdfrx.GetBlockFn.read, 9⟩, 0, 7, 42⟩,
        Pdfrx.ReaderState.waiting 0 5 10, []⟩
      ⟨⟨⟨100, some Pdfrx.GetBlockFn.read, 9⟩, 1, 7, 42⟩,
        Pdfrx.ReaderState.woken, []⟩
      (Pdfrx.Label.completeRead 1) 0 5 10 rfl (by decide),
    blocked_read_released_only_by_completeRead.2
      ⟨⟨⟨100, some Pdfrx.GetBlockFn.read, 9⟩, 0, 7, 42⟩,
        Pdfrx.ReaderState.waiting 0 5 10, []⟩
      ⟨⟨⟨100, some Pdfrx.GetBlockFn.read, 9⟩, 0, 7, 42⟩,
        Pdfrx.ReaderState.waiting 0 5 10, []⟩
      [] 0 5 10 rfl (by simp) rfl⟩

/-- C3: `completeRead(handle, r)` atomically (its whole critical section is
one step) records `r` into `pendingResult` (`retValue`), changing nothing
else of the bridge object, and wakes the one waiter blocked on the pending
read; invoked with no read blocked it changes no thread state — the signal
is dropped, and a read issued afterwards still blocks and stays blocked
until a further `completeRead`, the recorded `retValue` notwithstanding. -/
theorem completeRead_records_and_wakes
    (s s' : Pdfrx.SysState) (r : Int)
    (h : Pdfrx.Step s (Pdfrx.Label.completeRead r) s') :
    s'.bridge.retValue = r
    ∧ s'.bridge = Pdfrx.pdfrx_file_access_set_value s.bridge r
    ∧ s'.events = s.events
    ∧ (∀ p b z, s.reader = Pdfrx.ReaderState.waiting p b z →
        s'.reader = Pdfrx.ReaderState.woken)
    ∧ ((∀ p b z, s.reader ≠ Pdfrx.ReaderState.waiting p b z) →
        s'.reader = s.reader
        ∧ ∀ (p b z : Nat) (s'' t : Pdfrx.SysState) (ls : List Pdfrx.Label),
            Pdfrx.Step s' (Pdfrx.Label.startRead p b z) s'' →
            (∀ r', Pdfrx.Label.completeRead r' ∉ ls) →
            Pdfrx.Steps s'' ls t →
            t.reader = Pdfrx.ReaderState.waiting p b z) := by
  obtain ⟨hb, hev, hwk, hnw⟩ := step_completeRead_elim h
  refine ⟨by rw [hb]; rfl, hb, hev, hwk, fun hn => ⟨hnw hn, ?_⟩⟩
  intro p b z s'' t ls h1 hfree h2
  obtain ⟨-, rfl⟩ := step_startRead_elim h1
  rw [steps_from_waiting rfl hfree h2]

theorem completeRead_records_and_wakes_witness :
    (⟨⟨⟨100, some Pdfrx.GetBlockFn.read, 9⟩, 5, 7, 42⟩,
      Pdfrx.ReaderState.idle, []⟩ : Pdfrx.SysState).bridge.retValue = 5 :=
  (completeRead_records_and_wakes
    ⟨⟨⟨100, some Pdfrx.GetBlockFn.read, 9⟩, 0, 7, 42⟩,
      Pdfrx.ReaderState.idle, []⟩
    ⟨⟨⟨100, some Pdfrx.GetBlockFn.read, 9⟩, 5, 7, 42⟩,
      Pdfrx.ReaderState.idle, []⟩
    5 (by decide)).1

/-- C4: from any state reachable from a freshly created bridge, a
`performRead(position, pBuf, size)` entry invokes `readRequestCallback`
exactly once before blocking — it appends exactly one invocation record to
the event log, carrying the creation-supplied callback and context
unchanged together with the exact `position`, `pBuf` and `size` arguments —
and leaves the thread blocked. -/
theorem performRead_invokes_callback_once_unchanged
    (self len cb ctx : Nat) (ls : List Pdfrx.Label)
    (s s' : Pdfrx.SysState) (p b z : Nat)
    (hreach : Pdfrx.Steps (Pdfrx.initSystem self len cb ctx) ls s)
    (h : Pdfrx.Step s (Pdfrx.Label.startRead p b z) s') :
    s'.events = s.events ++
      [{ fn := cb, param := ctx, position := p, pBuf := b, size := z }]
    ∧ s'.reader = Pdfrx.ReaderState.waiting p b z := by
  obtain ⟨-, hrb, hpar⟩ := steps_meta hreach
  have h1 : s.bridge.readBlock = cb := by rw [hrb]; rfl
  have h2 : s.bridge.param = ctx := by rw [hpar]; rfl
  obtain ⟨-, rfl⟩ := step_startRead_elim h
  refine ⟨?_, rfl⟩
  simp [h1, h2]

theorem performRead_invokes_callback_once_unchanged_witness :
    (⟨⟨⟨100, some Pdfrx.GetBlockFn.read, 9⟩, 0, 7, 42⟩,
      Pdfrx.ReaderState.waiting 0 5 10,
      [⟨7, 42, 0, 5, 10⟩]⟩ : Pdfrx.SysState).events
      = ([] : List Pdfrx.ReadRequest) ++ [⟨7, 42, 0, 5, 10⟩]
    ∧ (⟨⟨⟨100, some Pdfrx.GetBlockFn.read, 9⟩, 0, 7, 42⟩,
        Pdfrx.ReaderState.waiting 0 5 10,
        [⟨7, 42, 0, 5, 10⟩]⟩ : Pdfrx.SysState).reader
        = Pdfrx.ReaderState.waiting 0 5 10 :=
  performRead_invokes_callback_once_unchanged 9 100 7 42 []
    (Pdfrx.initSystem 9 100 7 42)
    ⟨⟨⟨100, some Pdfrx.GetBlockFn.read, 9⟩, 0, 7, 42⟩,
      Pdfrx.ReaderState.waiting 0 5 10, [⟨7, 42, 0, 5, 10⟩]⟩
    0 5 10 rfl (by decide)

/-- C5: `create(totalLength, readRequestCallback, callbackContext)` yields a
live bridge whose `retValue` is the neutral zero status, whose stored
length equals `totalLength`, which stores the callback and context
verbatim, with no pending read, and which has performed no I/O — the
callback has never been invoked. -/
theorem create_initializes_bridge (self len cb ctx : Nat) :
    (Pdfrx.initSystem self len cb ctx).bridge.retValue = 0
    ∧ (Pdfrx.initSystem self len cb ctx).bridge.fileAccess.m_FileLen = len
    ∧ (Pdfrx.initSystem self len cb ctx).bridge.readBlock = cb
    ∧ (Pdfrx.initSystem self len cb ctx).bridge.param = ctx
    ∧ (Pdfrx.initSystem self len cb ctx).reader = Pdfrx.ReaderState.idle
    ∧ (Pdfrx.initSystem self len cb ctx).events = [] :=
  ⟨rfl, rfl, rfl, rfl, rfl, rfl⟩

/-- C6: `performRead` validates nothing against `totalLength`: for every
`position` and `size` — including `position + size` beyond the stored
length — entering `read` unconditionally invokes the callback with the
given arguments and blocks, and the step is the same whatever value the
stored `m_FileLen` holds. -/
theorem performRead_no_bounds_check
    (s : Pdfrx.SysState) (p b z : Nat)
    (hc : s.reader.canStart = true) :
    Pdfrx.stepFn s (Pdfrx.Label.startRead p b z)
      = some { s with
                reader := Pdfrx.ReaderState.waiting p b z
                events := s.events ++
                  [{ fn := s.bridge.readBlock, param := s.bridge.param
                     position := p, pBuf := b, size := z }] }
    ∧ ∀ len', Pdfrx.stepFn (setFileLen s len') (Pdfrx.Label.startRead p b z)
        = some (setFileLen
            { s with
              reader := Pdfrx.ReaderState.waiting p b z
              events := s.events ++
                [{ fn := s.bridge.readBlock, param := s.bridge.param
                   position := p, pBuf := b, size := z }] } len') := by
  refine ⟨stepFn_startRead_canStart hc p b z, fun len' => ?_⟩
  have hc' : (setFileLen s len').reader.canStart = true := hc
  rw [stepFn_startRead_canStart hc' p b z]
  rfl

theorem performRead_no_bounds_check_witness :
    Pdfrx.stepFn
        (⟨⟨⟨100, some Pdfrx.GetBlockFn.read, 9⟩, 0, 7, 42⟩,
          Pdfrx.ReaderState.idle, []⟩ : Pdfrx.SysState)
        (Pdfrx.Label.startRead 90 5 50)
      = some ⟨⟨⟨100, some Pdfrx.GetBlockFn.read, 9⟩, 0, 7, 42⟩,
          Pdfrx.ReaderState.waiting 90 5 50, [⟨7, 42, 90, 5, 50⟩]⟩ :=
  (performRead_no_bounds_check
    ⟨⟨⟨100, some Pdfrx.GetBlockFn.read, 9⟩, 0, 7, 42⟩,
      Pdfrx.ReaderState.idle, []⟩
    90 5 50 rfl).1

/-- C7: the stored total length (indeed the whole `FPDF_FILEACCESS`
descriptor), the stored `readBlock` callback and the stored `param` context
are unchanged by every step after creation, and a `completeRead` step
modifies the bridge object in nothing but `retValue`. -/
theorem bridge_fields_immutable
    (s s' : Pdfrx.SysState) (l : Pdfrx.Label)
    (h : Pdfrx.Step s l s') :
    s'.bridge.fileAccess.m_FileLen = s.bridge.fileAccess.m_FileLen
    ∧ s'.bridge.fileAccess = s.bridge.fileAccess
    ∧ s'.bridge.readBlock = s.bridge.readBlock
    ∧ s'.bridge.param = s.bridge.param
    ∧ (∀ r, l = Pdfrx.Label.completeRead r →
        s'.bridge = { s.bridge with retValue := r }) := by
  obtain ⟨h1, h2, h3⟩ := step_meta h
  refine ⟨by rw [h1], h1, h2, h3, ?_⟩
  rintro r rfl
  obtain ⟨hb, -, -, -⟩ := step_completeRead_elim h
  exact hb

theorem bridge_fields_immutable_witness :
    (⟨⟨100, some Pdfrx.GetBlockFn.read, 9⟩, 3, 7, 42⟩ :
        Pdfrx.pdfrx_file_access)
      = { (⟨⟨100, some Pdfrx.GetBlockFn.read, 9⟩, 0, 7, 42⟩ :
            Pdfrx.pdfrx_file_access) with retValue := 3 } :=
  (bridge_fields_immutable
    ⟨⟨⟨100, some Pdfrx.GetBlockFn.read, 9⟩, 0, 7, 42⟩,
      Pdfrx.ReaderState.idle, []⟩
    ⟨⟨⟨100, some Pdfrx.GetBlockFn.read, 9⟩, 3, 7, 42⟩,
      Pdfrx.ReaderState.idle, []⟩
    (Pdfrx.Label.completeRead 3) rfl).2.2.2.2 3 rfl

set_option maxRecDepth 4000 in
/-- C8: the symbol-resolution entry point `pdfrx_binding` is deterministic
and stable — every call, in any run, returns the same fixed, ordered table,
so a positional lookup always resolves to the same function; the table is
the 148-entry `bindings` array in its source order. -/
theorem pdfrx_binding_deterministic :
    (∀ run call run' call',
        Darwin.pdfrx_binding run call = Darwin.pdfrx_binding run' call')
    ∧ (∀ run call, Darwin.pdfrx_binding run call = Darwin.bindings)
    ∧ (∀ run call run' call' (i : Nat),
        (Darwin.pdfrx_binding run call)[i]?
          = (Darwin.pdfrx_binding run' call')[i]?)
    ∧ Darwin.bindings.length = 148
    ∧ Darwin.bindings[0]? = some "FPDF_InitLibraryWithConfig"
    ∧ Darwin.bindings[147]? = some "FPDFLink_CloseWebLinks" :=
  ⟨fun _ _ _ _ => rfl, fun _ _ => rfl, fun _ _ _ _ _ => rfl, rfl, rfl, rfl⟩

/-- C9: the file-access descriptor built by `create` is self-referential:
its `m_GetBlock` is exactly the bridge's internal `read` function and its
`m_Param` is the address of the bridge instance itself — not the
creator-supplied `callbackContext`, which is stored separately in `param` —
so dereferencing `m_Param` on any heap holding the bridge yields the very
bridge that created the descriptor. -/
theorem descriptor_self_referential (self len cb ctx : Nat) :
    (Pdfrx.pdfrx_file_access_create self len cb ctx).fileAccess.m_GetBlock
      = some Pdfrx.GetBlockFn.read
    ∧ (Pdfrx.pdfrx_file_access_create self len cb ctx).fileAccess.m_Param
        = self
    ∧ (Pdfrx.pdfrx_file_access_create self len cb ctx).param = ctx
    ∧ ∀ heap : Nat → Option Pdfrx.pdfrx_file_access,
        heap self = some (Pdfrx.pdfrx_file_access_create self len cb ctx) →
        heap ((Pdfrx.pdfrx_file_access_create self len cb ctx).fileAccess.m_Param)
          = some (Pdfrx.pdfrx_file_access_create self len cb ctx) :=
  ⟨rfl, rfl, rfl, fun _ hh => hh⟩

theorem descriptor_self_referential_witness :
    (fun a => if a = 9 then some (Pdfrx.pdfrx_file_access_create 9 100 7 42)
              else none)
        ((Pdfrx.pdfrx_file_access_create 9 100 7 42).fileAccess.m_Param)
      = some (Pdfrx.pdfrx_file_access_create 9 100 7 42) :=
  (descriptor_self_referential 9 100 7 42).2.2.2
    (fun a => if a = 9 then some (Pdfrx.pdfrx_file_access_create 9 100 7 42)
              else none)
    rfl

/-- C10: the two copies of the bridge — `src/darwin/Classes/pdfium_interop.cpp`
and `src/packages/pdfrx/src/pdfium_interop.cpp` — are behaviorally
equivalent: under the field-for-field state correspondence (a bijection),
`create`, `set_value`, `destroy` and every step and step sequence of the
rendezvous produce corresponding results in the two implementations. -/
theorem bridge_copies_equivalent :
    (∀ self len cb ctx,
        bridgeToDarwin (Pdfrx.pdfrx_file_access_create self len cb ctx)
          = Darwin.pdfrx_file_access_create self len cb ctx)
    ∧ (∀ fa r, bridgeToDarwin (Pdfrx.pdfrx_file_access_set_value fa r)
          = Darwin.pdfrx_file_access_set_value (bridgeToDarwin fa) r)
    ∧ (∀ (heap : Nat → Option Pdfrx.pdfrx_file_access) (addr a : Nat),
        Option.map bridgeToDarwin (Pdfrx.pdfrx_file_access_destroy heap addr a)
          = Darwin.pdfrx_file_access_destroy
              (fun x => Option.map bridgeToDarwin (heap x)) addr a)
    ∧ (∀ s l, Option.map sysToDarwin (Pdfrx.stepFn s l)
          = Darwin.stepFn (sysToDarwin s) (labelToDarwin l))
    ∧ (∀ s ls, Option.map sysToDarwin (Pdfrx.stepsFn s ls)
          = Darwin.stepsFn (sysToDarwin s) (ls.map labelToDarwin))
    ∧ (∀ self len cb ctx,
        sysToDarwin (Pdfrx.initSystem self len cb ctx)
          = Darwin.initSystem self len cb ctx)
    ∧ (∀ s, sysToPdfrx (sysToDarwin s) = s)
    ∧ (∀ t, sysToDarwin (sysToPdfrx t) = t) := by
  refine ⟨fun _ _ _ _ => rfl, fun _ _ => rfl, fun heap addr a => ?_,
    stepFn_commutes, fun s ls => stepsFn_commutes ls s, fun _ _ _ _ => rfl,
    sys_round1, sys_round2⟩
  unfold Pdfrx.pdfrx_file_access_destroy Darwin.pdfrx_file_access_destroy
  by_cases hh : a = addr
  · rw [if_pos hh, if_pos hh]
    rfl
  · rw [if_neg hh, if_neg hh]
